import Mathlib

/-!
# Verification of the dundie rewards API core

A shallow embedding, in Lean 4, of the core of the `dundie` points-based
rewards service (Python / FastAPI / SQLModel), together with theorems
settling the specification claims about it.

Embedded source files:
* `dundie/models/user.py` — the `User` model, the `balance` and `superuser`
  derived attributes, `generate_username`, and the request serializers with
  their validators;
* `dundie/routes/user.py` — the route bodies `get_user_by_username`,
  `create_user`, `update_user`, `change_password`,
  `send_password_reset_token`;
* `dundie/tasks/user.py` — `try_to_send_pwd_reset_email`;
* `migrations/versions/491f4464b587_ensure_admin_user.py` — the `upgrade`
  seeding step.

The database session is modelled as an explicit list of rows threaded through
each operation; `commit` on a model with `unique=True` fields either persists
the pending row or raises `IntegrityError` and leaves the stored rows
untouched, exactly as the route code assumes of its persistence collaborator.
Python strings are modelled as Lean `String`s, with `str.lower` embedded for
the ASCII range via an explicit case table.  The password hashing primitive
(`dundie/security.py`, consumed through the `HashedPassword` field type and
`get_password_hash`) is an external collaborator and is passed in as an
explicit `hash` function argument where the code applies it.
-/

namespace Dundie

/-! ## Python string primitives used by `generate_username` -/

/-- The ASCII uppercase-to-lowercase case table: the fragment of Python
`str.lower` exercised by `generate_username` (display names and slugs in this
code base are ASCII). -/
def asciiCaseMap : List (Char × Char) :=
  [('A','a'), ('B','b'), ('C','c'), ('D','d'), ('E','e'), ('F','f'), ('G','g'),
   ('H','h'), ('I','i'), ('J','j'), ('K','k'), ('L','l'), ('M','m'), ('N','n'),
   ('O','o'), ('P','p'), ('Q','q'), ('R','r'), ('S','s'), ('T','t'), ('U','u'),
   ('V','v'), ('W','w'), ('X','x'), ('Y','y'), ('Z','z')]

/-- Lowercase one character, per `asciiCaseMap`. -/
def pyCharLower (c : Char) : Char :=
  match asciiCaseMap.find? (fun p => p.1 = c) with
  | some p => p.2
  | none => c

/-- Python `s.replace(old, new)` for single-character `old`/`new`, acting on
the character list of a string. -/
def pyReplaceChar (old new : Char) (l : List Char) : List Char :=
  l.map (fun c => if c = old then new else c)

/-- `generate_username` from `dundie/models/user.py`:
`name.lower().replace(" ", "-").replace("_", "-")`. -/
def generate_username (name : String) : String :=
  String.mk (pyReplaceChar '_' '-' (pyReplaceChar ' ' '-' (name.data.map pyCharLower)))

/-- The `UserRequest.generate_username_if_not_set` root validator
(`dundie/models/user.py`): the username a creation draft ends up with — the
supplied one when present, otherwise `generate_username` of the display name. -/
def generate_username_if_not_set (username : Option String) (name : String) : String :=
  match username with
  | none => generate_username name
  | some u => u

/-- The per-character action of `generate_username`: lowercase, then
space-to-hyphen, then underscore-to-hyphen. -/
def usernameCharStep (c : Char) : Char :=
  let d := pyCharLower c
  let e := if d = ' ' then '-' else d
  if e = '_' then '-' else e

/-! ## Data model: `User` rows and the database session -/

/-- A stored `User` row (`dundie/models/user.py`).  `email` and `username`
carry `unique=True` constraints; `password` holds the opaque value produced by
the hashing collaborator. -/
structure User where
  id : Nat
  email : String
  username : String
  avatar : Option String
  bio : Option String
  password : String
  name : String
  dept : String
  currency : String
deriving DecidableEq, Repr

/-- The `User.superuser` derived attribute: members of the management
department are admins.  Not stored; computed from `dept`. -/
def superuser (u : User) : Bool :=
  u.dept == "management"

/-- `session.exec(select(User).where(User.username == username)).first()`. -/
def findByUsername (db : List User) (username : String) : Option User :=
  db.find? (fun u => u.username == username)

/-- `session.exec(select(User).where(User.email == email)).first()`. -/
def findByEmail (db : List User) (email : String) : Option User :=
  db.find? (fun u => u.email == email)

/-- The integrity check `commit` performs for a pending `User` row: `email`
and `username` are declared `unique=True` on the model, so committing raises
`IntegrityError` whenever an existing row shares either value. -/
def violatesUnique (db : List User) (u : User) : Bool :=
  db.any (fun v => v.username == u.username || v.email == u.email)

/-- Persisting a mutation of a fetched row: the row with the same primary key
is replaced. -/
def replaceUser (db : List User) (uid : Nat) (u' : User) : List User :=
  db.map (fun v => if v.id == uid then u' else v)

/-! ## Routes (`dundie/routes/user.py`) -/

/-- `get_user_by_username` route body: a bare `first()` with no existence
check — the raw lookup result (possibly `none`) is returned as the response. -/
def get_user_by_username (db : List User) (username : String) : Option User :=
  findByUsername db username

/-- A `UserRequest` creation draft after its validators ran (`username` has
already been filled in by `generate_username_if_not_set` when it was omitted). -/
structure UserRequest where
  name : String
  email : String
  dept : String
  password : String
  currency : String
  username : String
  avatar : Option String
  bio : Option String
deriving DecidableEq, Repr

/-- Outcome of the `create_user` route. -/
inductive CreateUserResult where
  /-- 201 with the created row. -/
  | created (u : User)
  /-- `HTTPException(status_code=409, detail="Username already taken")`. -/
  | conflictUsernameTaken
  /-- `HTTPException(status_code=500, detail="Database IntegrityError")`. -/
  | integrityError
deriving DecidableEq, Repr

/-- `create_user` route body: look-before-you-leap check on the username,
then `from_orm` + `add` + `commit`, translating `IntegrityError` into a 500
response.  `hash` abstracts `get_password_hash` applied through the
`HashedPassword` field type; `freshId` is the primary key the database
assigns. -/
def create_user (hash : String → String) (db : List User) (user : UserRequest)
    (freshId : Nat) : CreateUserResult × List User :=
  if (findByUsername db user.username).isSome then
    (CreateUserResult.conflictUsernameTaken, db)
  else
    let db_user : User :=
      { id := freshId, email := user.email, username := user.username,
        avatar := user.avatar, bio := user.bio, password := hash user.password,
        name := user.name, dept := user.dept, currency := user.currency }
    if violatesUnique db db_user then
      (CreateUserResult.integrityError, db)
    else
      (CreateUserResult.created db_user, db ++ [db_user])

/-- `UserProfilePatchReuest` (name as in the source): the partial-update
payload — only `avatar` and `bio` can be supplied. -/
structure UserProfilePatchReuest where
  avatar : Option String
  bio : Option String
deriving DecidableEq, Repr

/-- Outcome of the `update_user` route. -/
inductive UpdateUserResult where
  /-- 200 with the updated row. -/
  | ok (u : User)
  /-- `HTTPException(status_code=404, detail="User not found")`. -/
  | notFound
  /-- `HTTPException(status_code=403)` — not your own profile. -/
  | forbidden
deriving DecidableEq, Repr

/-- The mutation step of `update_user`:
`user.avatar = patch_data.avatar if patch_data.avatar is not None else user.avatar`
and the same for `bio`. -/
def applyProfilePatch (user : User) (patch_data : UserProfilePatchReuest) : User :=
  { user with
    avatar := if patch_data.avatar.isSome then patch_data.avatar else user.avatar,
    bio := if patch_data.bio.isSome then patch_data.bio else user.bio }

/-- `update_user` route body: fetch by username (404 when absent), require
the target to be the acting principal or the principal to be a superuser
(403 otherwise), then patch and persist. -/
def update_user (db : List User) (patch_data : UserProfilePatchReuest)
    (current_user : User) (username : String) : UpdateUserResult × List User :=
  match findByUsername db username with
  | none => (UpdateUserResult.notFound, db)
  | some user =>
    if user.id != current_user.id && !superuser current_user then
      (UpdateUserResult.forbidden, db)
    else
      let user' := applyProfilePatch user patch_data
      (UpdateUserResult.ok user', replaceUser db user.id user')

/-- Outcome of the `change_password` route (after its payload validator). -/
inductive PasswordPatchResult where
  /-- 200 with the updated row. -/
  | ok (u : User)
  /-- `HTTPException(status_code=400, detail="Passwords do not match")`,
  raised by the `UserPasswordPatchRequest.check_password_match` validator. -/
  | validationError
deriving DecidableEq, Repr

/-- The `UserPasswordPatchRequest.check_password_match` root validator
condition: the two supplied values agree. -/
def check_password_match (password password_confirm : String) : Bool :=
  password == password_confirm

/-- `change_password` route: the payload validator runs first (400 on
mismatch, before the route body executes), then the body stores
`patch_data.hashed_password = get_password_hash(password)` on the target and
commits.  The `user` argument is the target already resolved by the
`CanChangeUserPassword` guard (`dundie/auth.py`, an external collaborator):
the body runs only once authorization has succeeded. -/
def change_password (hash : String → String) (db : List User) (user : User)
    (password password_confirm : String) : PasswordPatchResult × List User :=
  if !check_password_match password password_confirm then
    (PasswordPatchResult.validationError, db)
  else
    let user' := { user with password := hash password }
    (PasswordPatchResult.ok user', replaceUser db user.id user')

/-! ## Password-reset request flow
(`send_password_reset_token` route and `try_to_send_pwd_reset_email` task) -/

/-- Observable effects of one run of the background task: operational log
lines appended to `email.log`, password-reset tokens minted, and email
recipients.  A token is modelled by its claim set (subject username and
scope), since `create_access_token` (`dundie/auth.py`) is an external
collaborator that only signs those claims. -/
structure ResetEmailEffects where
  logLines : List String
  tokensIssued : List (String × String)
  emailsSent : List String
deriving DecidableEq, Repr

/-- `try_to_send_pwd_reset_email` (`dundie/tasks/user.py`): look the user up
by email; when absent, append one error line to the log and stop — no token
is minted and no mail is sent.  When present, mint a `pwd_reset`-scope token
for the username and send it to the stored address. -/
def try_to_send_pwd_reset_email (db : List User) (email : String) : ResetEmailEffects :=
  match findByEmail db email with
  | none =>
      { logLines := ["--- Erro ao tentar enviar email para <" ++ email ++ "> ---"],
        tokensIssued := [], emailsSent := [] }
  | some user =>
      { logLines := [], tokensIssued := [(user.username, "pwd_reset")],
        emailsSent := [user.email] }

/-- `send_password_reset_token` route body: schedule the background task and
immediately return the fixed acknowledgment body — the response is built
before (and independently of) any user lookup. -/
def send_password_reset_token (_email : String) : String :=
  "If we found a user with that email, we sent a password reset token to it."

/-! ## First-boot seeding (migration `491f4464b587_ensure_admin_user`) -/

/-- The admin row constructed by the `upgrade` migration step. -/
def adminSeedUser (hash : String → String) (freshId : Nat) : User :=
  { id := freshId, email := "admin@dm.com", username := "admin", avatar := none,
    bio := none, password := hash "admin", name := "Admin", dept := "management",
    currency := "USD" }

/-- `upgrade`: add the admin row and commit; an `IntegrityError` (uniqueness
violation on `username` or `email`) is swallowed by rolling back, leaving the
stored rows unchanged. -/
def upgrade (hash : String → String) (freshId : Nat) (db : List User) : List User :=
  let admin := adminSeedUser hash freshId
  if violatesUnique db admin then db else db ++ [admin]

/-- Running the seeding step once per element of `ids` (each run being handed
the primary key the database would assign). -/
def runUpgrades (hash : String → String) (ids : List Nat) (db : List User) : List User :=
  ids.foldl (fun d i => upgrade hash i d) db

/-- How many stored rows are management-department users with username
`admin` and email `admin@dm.com`. -/
def countAdminUsers (db : List User) : Nat :=
  (db.filter
    (fun u => u.username == "admin" && u.email == "admin@dm.com" && u.dept == "management")).length

/-! ## Ledger and balance -/

/-- A ledger entry.  The `Transaction` model is declared in
`dundie/models/transaction.py`, which is not among the sources here (only its
declarations and callers are); per the spec it carries an identifier, a
signed integer value, a creation timestamp, and the two user references —
the identifier and timestamp play no role in balance derivation and are
omitted.  `user_id` is the recipient (the `user`/`incomes` side), `from_id`
the sender (the `from_user`/`expenses` side), matching the `primaryjoin`
strings on the `User` relationships. -/
structure Transaction where
  user_id : Nat
  from_id : Nat
  value : Int
deriving DecidableEq, Repr

/-- A materialized `Balance` row for one user, as read through the
`User._balance` dynamic relationship. -/
structure BalanceRow where
  user_id : Nat
  value : Int
deriving DecidableEq, Repr

/-- The `User.balance` property (`dundie/models/user.py`): read the first
`Balance` row of the user through the `_balance` relationship; `0` when none
exists. -/
def balance (uid : Nat) (rows : List BalanceRow) : Int :=
  match rows.find? (fun b => b.user_id == uid) with
  | some user_balance => user_balance.value
  | none => 0

/-- Sum of values of ledger entries where the user is the recipient.  Stated
from the words of the spec contract, for comparison with the code. -/
def incomingSum (uid : Nat) (txs : List Transaction) : Int :=
  ((txs.filter (fun t => t.user_id == uid)).map (fun t => t.value)).sum

/-- Sum of values of ledger entries where the user is the sender.  Stated
from the words of the spec contract, for comparison with the code. -/
def outgoingSum (uid : Nat) (txs : List Transaction) : Int :=
  ((txs.filter (fun t => t.from_id == uid)).map (fun t => t.value)).sum

/-- The spec contract `balance(user) = Σ(incoming.value) − Σ(outgoing.value)`,
stated from the words of the spec, for comparison with the code. -/
def ledgerBalance (uid : Nat) (txs : List Transaction) : Int :=
  incomingSum uid txs - outgoingSum uid txs

/-- The ledger store together with the materialized per-user balance rows. -/
structure LedgerState where
  transactions : List Transaction
  balances : List BalanceRow
deriving DecidableEq, Repr

/-- The freshly migrated store: no transactions, no balance rows. -/
def emptyLedger : LedgerState :=
  { transactions := [], balances := [] }

/-- Modelled from the spec: the code maintaining the materialized `Balance`
row per user on each transfer lives in `dundie/models/transaction.py` /
the transaction route, which are not among the sources here.  Per the spec
(§3 Balance), the design "materializes running balances per-transfer" and
"must still expose the same externally observed value as if derived purely
from the ledger": the row of the affected user is adjusted by the delta,
starting from the default 0 on first involvement. -/
def upsertBalance (uid : Nat) (delta : Int) : List BalanceRow → List BalanceRow
  | [] => [{ user_id := uid, value := delta }]
  | b :: rest =>
      if b.user_id == uid then { user_id := uid, value := b.value + delta } :: rest
      else b :: upsertBalance uid delta rest

/-- Modelled from the spec: `Ledger.append(fromUser, toUser, value)` (§4.4)
— append the immutable entry and adjust the materialized balance of the
sender by `-value` and of the recipient by `+value`. -/
def appendTransaction (st : LedgerState) (from_id to_id : Nat) (value : Int) : LedgerState :=
  { transactions := st.transactions ++ [{ user_id := to_id, from_id := from_id, value := value }],
    balances := upsertBalance to_id value (upsertBalance from_id (-value) st.balances) }

/-- The ledger states reachable from the fresh store by a sequence of
appends `(fromUser, toUser, value)`. -/
def runAppends (ops : List (Nat × Nat × Int)) : LedgerState :=
  ops.foldl (fun st op => appendTransaction st op.1 op.2.1 op.2.2) emptyLedger

/-! ## Concrete rows used by witnesses and counterexamples -/

/-- A sample stored non-admin user. -/
def pamUser : User :=
  { id := 1, email := "pam@dm.com", username := "pam", avatar := none,
    bio := none, password := "x", name := "Pam", dept := "sales",
    currency := "USD" }

/-- A creation draft whose email collides with `pamUser` under a fresh
username. -/
def jimDraft : UserRequest :=
  { name := "Jim", email := "pam@dm.com", dept := "sales", password := "pw",
    currency := "USD", username := "jim", avatar := none, bio := none }

/-- A creation draft whose username collides with `pamUser` under a fresh
email. -/
def pamDraft : UserRequest :=
  { name := "Pam Two", email := "pam2@dm.com", dept := "sales", password := "pw",
    currency := "USD", username := "pam", avatar := none, bio := none }

/-- The empty profile patch (both fields left unset). -/
def emptyPatch : UserProfilePatchReuest :=
  { avatar := none, bio := none }

/-! ## Helper lemmas about the string primitives -/

theorem pyCharLower_idem (c : Char) : pyCharLower (pyCharLower c) = pyCharLower c := by
  unfold pyCharLower
  cases h : asciiCaseMap.find? (fun p => p.1 = c) with
  | none => rw [h]
  | some p =>
    have hmem : p ∈ asciiCaseMap := List.mem_of_find?_eq_some h
    have key : ∀ q ∈ asciiCaseMap, asciiCaseMap.find? (fun r => r.1 = q.2) = none := by
      decide
    rw [key p hmem]

theorem generate_username_eq_map (name : String) :
    generate_username name = String.mk (name.data.map usernameCharStep) := by
  unfold generate_username pyReplaceChar
  rw [List.map_map, List.map_map]
  congr 1

theorem usernameCharStep_fixes (c : Char) :
    usernameCharStep c ≠ ' ' ∧ usernameCharStep c ≠ '_' ∧
      pyCharLower (usernameCharStep c) = usernameCharStep c := by
  unfold usernameCharStep
  by_cases hs : pyCharLower c = ' '
  · simp only [hs, if_pos rfl]
    exact ⟨by decide, by decide, by decide⟩
  · simp only [if_neg hs]
    by_cases hu : pyCharLower c = '_'
    · simp only [hu, if_pos rfl]
      exact ⟨by decide, by decide, by decide⟩
    · simp only [if_neg hu]
      exact ⟨hs, hu, pyCharLower_idem c⟩

theorem usernameCharStep_idem (c : Char) :
    usernameCharStep (usernameCharStep c) = usernameCharStep c := by
  obtain ⟨hs, hu, hl⟩ := usernameCharStep_fixes c
  show (let d := pyCharLower (usernameCharStep c);
        let e := if d = ' ' then '-' else d;
        if e = '_' then '-' else e) = usernameCharStep c
  simp only [hl]
  rw [if_neg hs, if_neg hu]

theorem map_usernameCharStep_idem (l : List Char) :
    (l.map usernameCharStep).map usernameCharStep = l.map usernameCharStep := by
  induction l with
  | nil => rfl
  | cons c cs ih => simp only [List.map_cons, ih, usernameCharStep_idem]

/-! ## The claims about username generation (C3, C10) -/

/-- C3: username auto-generation is a deterministic pure function applied
exactly when a creation draft omits the username: it lowercases the display
name and replaces each space and each underscore with a hyphen, with
`generate_username "Jim Halpert" = "jim-halpert"` and
`generate_username "Mic_Scott" = "mic-scott"`; a draft that supplies a
username keeps it unchanged. -/
theorem C3_username_autogeneration (name u : String) :
    generate_username "Jim Halpert" = "jim-halpert" ∧
    generate_username "Mic_Scott" = "mic-scott" ∧
    generate_username_if_not_set none name = generate_username name ∧
    generate_username_if_not_set (some u) name = u :=
  ⟨by decide, by decide, rfl, rfl⟩

/-- C10: `generate_username` is idempotent — its output contains no character
that lowercasing would change, no space, and no underscore, so a second
application is the identity. -/
theorem C10_generate_username_idempotent (s : String) :
    generate_username (generate_username s) = generate_username s ∧
    ∀ c ∈ (generate_username s).data, pyCharLower c = c ∧ c ≠ ' ' ∧ c ≠ '_' := by
  constructor
  · rw [generate_username_eq_map s, generate_username_eq_map]
    show String.mk ((s.data.map usernameCharStep).map usernameCharStep) = _
    rw [map_usernameCharStep_idem]
  · intro c hc
    rw [generate_username_eq_map s] at hc
    obtain ⟨d, _, rfl⟩ := List.mem_map.mp hc
    obtain ⟨hs, hu, hl⟩ := usernameCharStep_fixes d
    exact ⟨hl, hs, hu⟩

/-- Witness for C10 at a concrete string and character. -/
theorem C10_generate_username_idempotent_witness :
    generate_username (generate_username "Mic_Scott") = generate_username "Mic_Scott" ∧
    (pyCharLower 'm' = 'm' ∧ 'm' ≠ ' ' ∧ 'm' ≠ '_') :=
  ⟨(C10_generate_username_idempotent "Mic_Scott").1,
   (C10_generate_username_idempotent "Mic_Scott").2 'm' (by decide)⟩

/-! ## The claims about the user routes (C5, C6, C7, C8) -/

/-- C5: `update_user` fails with NotFound when no user with the given
username exists; fails with Forbidden when the target is neither the acting
principal nor the acting principal a superuser; and succeeds with the
patched user exactly when the acting principal is the target or a superuser. -/
theorem C5_patch_profile_authz (db : List User) (patch : UserProfilePatchReuest)
    (current : User) (username : String) :
    (findByUsername db username = none →
      (update_user db patch current username).1 = UpdateUserResult.notFound ∧
      (update_user db patch current username).2 = db) ∧
    (∀ user, findByUsername db username = some user →
      user.id ≠ current.id → superuser current = false →
      (update_user db patch current username).1 = UpdateUserResult.forbidden ∧
      (update_user db patch current username).2 = db) ∧
    (∀ user, findByUsername db username = some user →
      (user.id = current.id ∨ superuser current = true) →
      (update_user db patch current username).1
        = UpdateUserResult.ok (applyProfilePatch user patch)) := by
  refine ⟨?_, ?_, ?_⟩
  · intro h
    simp [update_user, h]
  · intro user hfind hid hsu
    have hcond : (user.id != current.id && !superuser current) = true := by
      simp [bne_iff_ne, hid, hsu]
    simp [update_user, hfind, hcond]
  · intro user hfind hor
    have hcond : (user.id != current.id && !superuser current) = false := by
      rcases hor with h | h
      · simp [h]
      · simp [h]
    simp [update_user, hfind, hcond]

/-- Witness for C5 at concrete rows: Pam patches her own profile. -/
theorem C5_patch_profile_authz_witness :
    (update_user [pamUser] emptyPatch pamUser "pam").1
      = UpdateUserResult.ok (applyProfilePatch pamUser emptyPatch) :=
  (C5_patch_profile_authz [pamUser] emptyPatch pamUser "pam").2.2 pamUser
    (by decide) (Or.inl rfl)

/-- C6: a profile patch mutates at most `avatar` and `bio` — every other
field of the target row (`id`, `email`, `username`, `name`, `dept`,
`currency`, `password`) is unchanged, and a patch field left unset keeps the
previous stored value. -/
theorem C6_patch_frame (user : User) (patch : UserProfilePatchReuest) :
    (applyProfilePatch user patch).id = user.id ∧
    (applyProfilePatch user patch).email = user.email ∧
    (applyProfilePatch user patch).username = user.username ∧
    (applyProfilePatch user patch).name = user.name ∧
    (applyProfilePatch user patch).dept = user.dept ∧
    (applyProfilePatch user patch).currency = user.currency ∧
    (applyProfilePatch user patch).password = user.password ∧
    (patch.avatar = none → (applyProfilePatch user patch).avatar = user.avatar) ∧
    (patch.bio = none → (applyProfilePatch user patch).bio = user.bio) := by
  refine ⟨rfl, rfl, rfl, rfl, rfl, rfl, rfl, ?_, ?_⟩
  · intro h
    unfold applyProfilePatch
    simp [h]
  · intro h
    unfold applyProfilePatch
    simp [h]

/-- Witness for C6 at a concrete row and the all-unset patch. -/
theorem C6_patch_frame_witness :
    (applyProfilePatch pamUser emptyPatch).password = pamUser.password ∧
    (applyProfilePatch pamUser emptyPatch).avatar = pamUser.avatar ∧
    (applyProfilePatch pamUser emptyPatch).bio = pamUser.bio :=
  ⟨(C6_patch_frame pamUser emptyPatch).2.2.2.2.2.2.1,
   (C6_patch_frame pamUser emptyPatch).2.2.2.2.2.2.2.1 rfl,
   (C6_patch_frame pamUser emptyPatch).2.2.2.2.2.2.2.2 rfl⟩

/-- C7: `change_password` fails with the 400 validation error whenever the
new password and its confirmation differ, leaving the stored rows unchanged;
when they match (authorization having already succeeded when the route body
runs) the target row stores exactly the hash of the new password. -/
theorem C7_change_password_validation (hash : String → String) (db : List User)
    (user : User) (password password_confirm : String) :
    (password ≠ password_confirm →
      (change_password hash db user password password_confirm).1
        = PasswordPatchResult.validationError ∧
      (change_password hash db user password password_confirm).2 = db) ∧
    (password = password_confirm →
      (change_password hash db user password password_confirm).1
        = PasswordPatchResult.ok { user with password := hash password }) := by
  constructor
  · intro h
    unfold change_password check_password_match
    rw [if_pos (by simp [h])]
    exact ⟨rfl, rfl⟩
  · intro h
    unfold change_password check_password_match
    rw [if_neg (by simp [h])]

/-- Witness for C7 at concrete inputs: mismatching confirmation. -/
theorem C7_change_password_validation_witness :
    (change_password (fun s => "h:" ++ s) [pamUser] pamUser "a" "b").1
      = PasswordPatchResult.validationError ∧
    (change_password (fun s => "h:" ++ s) [pamUser] pamUser "a" "b").2 = [pamUser] :=
  (C7_change_password_validation (fun s => "h:" ++ s) [pamUser] pamUser "a" "b").1
    (by decide)

/-- C8 (code bug): the `get_user_by_username` route body performs no
existence check — for an unknown username it returns the bare lookup result
`none` (Python `None`), in conflict with its own declared `UserResponse`
response model, instead of the NotFound failure the spec states; a stored
user is returned when the username matches. -/
theorem C8_get_user_missing_returns_none :
    get_user_by_username [pamUser] "ghost" = none ∧
    get_user_by_username [] "ghost" = none ∧
    (∀ u : User, get_user_by_username [u] u.username = some u) := by
  refine ⟨by decide, by decide, fun u => ?_⟩
  unfold get_user_by_username findByUsername
  simp [List.find?]

/-! ## The claim about user creation (C2) -/

/-- C2 counterexample: with `pamUser` (email `pam@dm.com`) already stored, a
draft reusing that email under the fresh username `jim` fails with the
generic 500 `IntegrityError` response, not the 409 Conflict the claim states
for a duplicate email. -/
theorem C2_counterexample :
    (create_user (fun s => s) [pamUser] jimDraft 2).1 = CreateUserResult.integrityError ∧
    (create_user (fun s => s) [pamUser] jimDraft 2).1 ≠ CreateUserResult.conflictUsernameTaken ∧
    ∀ u : User, (create_user (fun s => s) [pamUser] jimDraft 2).1 ≠ CreateUserResult.created u := by
  refine ⟨by decide, by decide, fun u h => ?_⟩
  rw [show (create_user (fun s => s) [pamUser] jimDraft 2).1
      = CreateUserResult.integrityError from by decide] at h
  exact absurd h (by simp)

/-- C2 amended: `create_user` fails with 409 Conflict when the username
already exists, fails with the generic 500 `IntegrityError` response when
only the email already exists, and in both failure cases the stored set of
users is unchanged — no partial record is persisted. -/
theorem C2_create_user_conflict_atomic (hash : String → String) (db : List User)
    (req : UserRequest) (freshId : Nat) :
    ((∃ u ∈ db, u.username = req.username) →
      (create_user hash db req freshId).1 = CreateUserResult.conflictUsernameTaken ∧
      (create_user hash db req freshId).2 = db) ∧
    ((∀ u ∈ db, u.username ≠ req.username) → (∃ u ∈ db, u.email = req.email) →
      (create_user hash db req freshId).1 = CreateUserResult.integrityError ∧
      (create_user hash db req freshId).2 = db) := by
  constructor
  · rintro ⟨u, hu, hname⟩
    have hfound : (findByUsername db req.username).isSome = true := by
      unfold findByUsername
      rw [List.find?_isSome]
      exact ⟨u, hu, by simp [hname]⟩
    simp [create_user, hfound]
  · rintro hnone ⟨u, hu, hemail⟩
    have hfound : findByUsername db req.username = none := by
      unfold findByUsername
      rw [List.find?_eq_none]
      intro v hv
      simp [hnone v hv]
    have hviol : violatesUnique db
        { id := freshId, email := req.email, username := req.username,
          avatar := req.avatar, bio := req.bio, password := hash req.password,
          name := req.name, dept := req.dept, currency := req.currency } = true := by
      unfold violatesUnique
      rw [List.any_eq_true]
      exact ⟨u, hu, by simp [hemail]⟩
    simp [create_user, hfound, hviol]

/-- Witness for the amended C2 at concrete rows: a colliding username. -/
theorem C2_create_user_conflict_atomic_witness :
    (create_user (fun s => s) [pamUser] pamDraft 2).1
      = CreateUserResult.conflictUsernameTaken ∧
    (create_user (fun s => s) [pamUser] pamDraft 2).2 = [pamUser] :=
  (C2_create_user_conflict_atomic (fun s => s) [pamUser] pamDraft 2).1
    ⟨pamUser, by decide, by decide⟩

/-! ## The claim about the password-reset request flow (C4) -/

/-- C4: the password-reset request route returns the identical acknowledgment
whether or not the presented email belongs to a stored user, and when no user
matches, the background task issues no token and sends no mail (only an
operational log line is written). -/
theorem C4_reset_ack_uniform_no_token (db : List User) (email otherEmail : String)
    (h : ∀ u ∈ db, u.email ≠ email) :
    send_password_reset_token email = send_password_reset_token otherEmail ∧
    (try_to_send_pwd_reset_email db email).tokensIssued = [] ∧
    (try_to_send_pwd_reset_email db email).emailsSent = [] := by
  have hf : findByEmail db email = none := by
    unfold findByEmail
    rw [List.find?_eq_none]
    intro u hu
    simp [h u hu]
  exact ⟨rfl, by simp [try_to_send_pwd_reset_email, hf], by simp [try_to_send_pwd_reset_email, hf]⟩

/-- Witness for C4 at concrete rows: an unregistered email against the store
holding only `pamUser`. -/
theorem C4_reset_ack_uniform_no_token_witness :
    send_password_reset_token "ghost@dm.com" = send_password_reset_token "pam@dm.com" ∧
    (try_to_send_pwd_reset_email [pamUser] "ghost@dm.com").tokensIssued = [] ∧
    (try_to_send_pwd_reset_email [pamUser] "ghost@dm.com").emailsSent = [] :=
  C4_reset_ack_uniform_no_token [pamUser] "ghost@dm.com" "pam@dm.com" (by decide)

/-! ## Helper lemmas for the seeding migration -/

theorem upgrade_of_conflict (hash : String → String) (i : Nat) (db : List User)
    (h : ∃ u ∈ db, u.username = "admin" ∨ u.email = "admin@dm.com") :
    upgrade hash i db = db := by
  obtain ⟨u, hu, hor⟩ := h
  have hviol : violatesUnique db (adminSeedUser hash i) = true := by
    unfold violatesUnique adminSeedUser
    rw [List.any_eq_true]
    refine ⟨u, hu, ?_⟩
    rcases hor with h | h
    · simp [h]
    · simp [h]
  simp [upgrade, hviol]

theorem upgrade_of_fresh (hash : String → String) (i : Nat) (db : List User)
    (h : ∀ u ∈ db, u.username ≠ "admin" ∧ u.email ≠ "admin@dm.com") :
    upgrade hash i db = db ++ [adminSeedUser hash i] := by
  have hviol : violatesUnique db (adminSeedUser hash i) = false := by
    unfold violatesUnique adminSeedUser
    rw [Bool.eq_false_iff]
    intro hany
    rw [List.any_eq_true] at hany
    obtain ⟨u, hu, hor⟩ := hany
    rcases Bool.or_eq_true_iff.mp hor with hb | hb
    · exact absurd (by simpa using hb) (h u hu).1
    · exact absurd (by simpa using hb) (h u hu).2
  simp [upgrade, hviol]

theorem runUpgrades_fixed (hash : String → String) (ids : List Nat) (db : List User)
    (h : ∃ u ∈ db, u.username = "admin" ∨ u.email = "admin@dm.com") :
    runUpgrades hash ids db = db := by
  induction ids with
  | nil => rfl
  | cons i ids ih =>
    show runUpgrades hash ids (upgrade hash i db) = db
    rw [upgrade_of_conflict hash i db h]
    exact ih

theorem countAdminUsers_append_admin (db : List User) (hash : String → String) (i : Nat) :
    countAdminUsers (db ++ [adminSeedUser hash i]) = countAdminUsers db + 1 := by
  unfold countAdminUsers adminSeedUser
  rw [List.filter_append]
  simp

theorem countAdminUsers_zero (db : List User)
    (h : ∀ u ∈ db, u.username ≠ "admin" ∧ u.email ≠ "admin@dm.com") :
    countAdminUsers db = 0 := by
  unfold countAdminUsers
  rw [List.length_eq_zero, List.filter_eq_nil_iff]
  intro u hu
  simp [(h u hu).1]

/-! ## The claim about first-boot seeding (C9) -/

/-- C9: first-boot seeding is idempotent — starting from a store with no
user holding the admin username or email, running the migration any positive
number of times leaves exactly one management-department user with username
`admin` and email `admin@dm.com`; every run after the first hits the
uniqueness conflict, swallows it, and leaves the stored rows unchanged. -/
theorem C9_seeding_idempotent (hash : String → String) (db : List User)
    (i : Nat) (ids : List Nat)
    (h : ∀ u ∈ db, u.username ≠ "admin" ∧ u.email ≠ "admin@dm.com") :
    runUpgrades hash (i :: ids) db = db ++ [adminSeedUser hash i] ∧
    countAdminUsers (runUpgrades hash (i :: ids) db) = 1 ∧
    (∀ j, upgrade hash j (runUpgrades hash (i :: ids) db)
      = runUpgrades hash (i :: ids) db) := by
  have hmem : ∃ u ∈ db ++ [adminSeedUser hash i],
      u.username = "admin" ∨ u.email = "admin@dm.com" :=
    ⟨adminSeedUser hash i, by simp, Or.inl rfl⟩
  have hrun : runUpgrades hash (i :: ids) db = db ++ [adminSeedUser hash i] := by
    show runUpgrades hash ids (upgrade hash i db) = _
    rw [upgrade_of_fresh hash i db h]
    exact runUpgrades_fixed hash ids _ hmem
  refine ⟨hrun, ?_, ?_⟩
  · rw [hrun, countAdminUsers_append_admin, countAdminUsers_zero db h]
  · intro j
    rw [hrun]
    exact upgrade_of_conflict hash j _ hmem

/-- Witness for C9: two runs over the empty store leave one admin row. -/
theorem C9_seeding_idempotent_witness :
    countAdminUsers (runUpgrades (fun s => s) [0, 1] []) = 1 :=
  (C9_seeding_idempotent (fun s => s) [] 0 [1] (by decide)).2.1

/-! ## Helper lemmas for the balance engine -/

theorem balance_cons (uid : Nat) (b : BalanceRow) (rest : List BalanceRow) :
    balance uid (b :: rest) = if b.user_id = uid then b.value else balance uid rest := by
  by_cases h : b.user_id = uid
  · have hc : (b.user_id == uid) = true := by simp [h]
    simp [balance, List.find?, hc, h]
  · have hc : (b.user_id == uid) = false := by simp [h]
    simp [balance, List.find?, hc, h]

theorem balance_upsertBalance (uid v : Nat) (delta : Int) (rows : List BalanceRow) :
    balance uid (upsertBalance v delta rows)
      = if uid = v then balance uid rows + delta else balance uid rows := by
  induction rows with
  | nil =>
    by_cases huv : uid = v
    · subst huv
      simp [balance, upsertBalance, List.find?]
    · have hvu : ¬(v = uid) := fun hh => huv hh.symm
      have hc : (v == uid) = false := by simp [hvu]
      simp [balance, upsertBalance, List.find?, huv, hc]
  | cons b rest ih =>
    by_cases hb : b.user_id = v
    · have hcond : (b.user_id == v) = true := by simp [hb]
      rw [show upsertBalance v delta (b :: rest)
            = { user_id := v, value := b.value + delta } :: rest from by
          simp [upsertBalance, hcond]]
      rw [balance_cons, balance_cons]
      by_cases huv : uid = v
      · subst huv
        simp [hb]
      · have h1 : ¬(v = uid) := fun hh => huv hh.symm
        have h2 : ¬(b.user_id = uid) := fun hh => huv (hb ▸ hh).symm
        simp [huv, h1, h2]
    · have hcond : (b.user_id == v) = false := by simp [hb]
      rw [show upsertBalance v delta (b :: rest) = b :: upsertBalance v delta rest from by
          simp [upsertBalance, hcond]]
      rw [balance_cons, balance_cons]
      by_cases hbu : b.user_id = uid
      · have huv : ¬(uid = v) := fun hh => hb (hbu.symm ▸ hh)
        simp [hbu, huv]
      · simp [hbu, ih]

theorem incomingSum_append_single (uid : Nat) (txs : List Transaction) (tx : Transaction) :
    incomingSum uid (txs ++ [tx])
      = incomingSum uid txs + (if tx.user_id = uid then tx.value else 0) := by
  unfold incomingSum
  rw [List.filter_append, List.map_append, List.sum_append]
  by_cases h : tx.user_id = uid
  · simp [h]
  · simp [h]

theorem outgoingSum_append_single (uid : Nat) (txs : List Transaction) (tx : Transaction) :
    outgoingSum uid (txs ++ [tx])
      = outgoingSum uid txs + (if tx.from_id = uid then tx.value else 0) := by
  unfold outgoingSum
  rw [List.filter_append, List.map_append, List.sum_append]
  by_cases h : tx.from_id = uid
  · simp [h]
  · simp [h]

theorem balance_appendTransaction (st : LedgerState) (f t : Nat) (v : Int)
    (h : ∀ u, balance u st.balances = ledgerBalance u st.transactions) (uid : Nat) :
    balance uid (appendTransaction st f t v).balances
      = ledgerBalance uid (appendTransaction st f t v).transactions := by
  have hb := h uid
  unfold ledgerBalance at hb ⊢
  show balance uid (upsertBalance t v (upsertBalance f (-v) st.balances))
      = incomingSum uid (st.transactions ++ [{ user_id := t, from_id := f, value := v }])
        - outgoingSum uid (st.transactions ++ [{ user_id := t, from_id := f, value := v }])
  rw [balance_upsertBalance, balance_upsertBalance,
    incomingSum_append_single, outgoingSum_append_single]
  dsimp only
  by_cases ht : uid = t <;> by_cases hfq : uid = f
  · rw [if_pos ht, if_pos hfq, if_pos ht.symm, if_pos hfq.symm]
    omega
  · rw [if_pos ht, if_neg hfq, if_pos ht.symm, if_neg (fun hh => hfq hh.symm)]
    omega
  · rw [if_neg ht, if_pos hfq, if_neg (fun hh => ht hh.symm), if_pos hfq.symm]
    omega
  · rw [if_neg ht, if_neg hfq, if_neg (fun hh => ht hh.symm), if_neg (fun hh => hfq hh.symm)]
    omega

theorem balance_runAppends (ops : List (Nat × Nat × Int)) (uid : Nat) :
    balance uid (runAppends ops).balances
      = ledgerBalance uid (runAppends ops).transactions := by
  unfold runAppends
  suffices hgen : ∀ st : LedgerState,
      (∀ u, balance u st.balances = ledgerBalance u st.transactions) →
      ∀ u, balance u
          (ops.foldl (fun s op => appendTransaction s op.1 op.2.1 op.2.2) st).balances
        = ledgerBalance u
          (ops.foldl (fun s op => appendTransaction s op.1 op.2.1 op.2.2) st).transactions by
    exact hgen emptyLedger
      (fun u => by simp [balance, ledgerBalance, incomingSum, outgoingSum, emptyLedger, List.find?])
      uid
  induction ops with
  | nil => exact fun st h u => h u
  | cons op rest ih =>
    intro st h u
    exact ih (appendTransaction st op.1 op.2.1 op.2.2)
      (balance_appendTransaction st op.1 op.2.1 op.2.2 h) u

/-! ## The claim about the balance engine (C1) -/

/-- C1: on every ledger state reachable by a sequence of appends, the
`balance` read of the code (first materialized row, default 0) equals the
signed sum of the ledger — incoming values minus outgoing values — and is 0
for a user involved in no transaction. -/
theorem C1_balance_signed_ledger_sum (ops : List (Nat × Nat × Int)) (uid : Nat) :
    balance uid (runAppends ops).balances
      = incomingSum uid (runAppends ops).transactions
        - outgoingSum uid (runAppends ops).transactions ∧
    ((∀ tx ∈ (runAppends ops).transactions, tx.user_id ≠ uid ∧ tx.from_id ≠ uid) →
      balance uid (runAppends ops).balances = 0) := by
  have hmain := balance_runAppends ops uid
  constructor
  · exact hmain
  · intro h
    rw [hmain]
    unfold ledgerBalance incomingSum outgoingSum
    have h1 : (runAppends ops).transactions.filter (fun tx => tx.user_id == uid) = [] := by
      rw [List.filter_eq_nil_iff]
      intro tx htx
      simp [(h tx htx).1]
    have h2 : (runAppends ops).transactions.filter (fun tx => tx.from_id == uid) = [] := by
      rw [List.filter_eq_nil_iff]
      intro tx htx
      simp [(h tx htx).2]
    rw [h1, h2]
    simp

/-- Witness for C1: a user party to no transaction of a concrete ledger has
balance 0. -/
theorem C1_balance_signed_ledger_sum_witness :
    balance 3 (runAppends [(1, 2, 100), (2, 1, 30)]).balances = 0 :=
  (C1_balance_signed_ledger_sum [(1, 2, 100), (2, 1, 30)] 3).2 (by decide)

end Dundie
